import Mathlib

/-!
Verification of the gradient-based face-impersonation attack in `main.py`.

Images and embeddings are shallowly embedded as lists of rationals; a batch is a
list of images.  The pretrained embedding model (`InceptionResnetV1`) is an
external collaborator and enters as an abstract function `model : Image → Rep`;
the gradient produced by autodifferentiation is likewise abstracted as an oracle
`gradOf : Batch → Batch`, while every arithmetic step the script performs on its
own (similarity, update, clamp, denormalization, pairing, file bookkeeping) is
translated directly from the source.
-/

namespace FaceAttack

/-- One image, flattened to its list of pixel values. -/
abbrev Image := List ℚ

/-- One batch of images, dimension 0 of the tensors in `main.py`. -/
abbrev Batch := List Image

/-- One embedding vector. -/
abbrev Rep := List ℚ

/-- Denormalization from `main.py`: `image_tensor * 128.0 + 127.5`. -/
def fixed_image_standardization_inverse (x : ℚ) : ℚ := x * 128 + 127.5

/-- Modelled from the spec: the normalization applied by `preprocess_image` is
`fixed_image_standardization` from the external facenet_pytorch library, whose code is
not in the repository sources; the spec states that denormalization
`pixel = tensor*128.0 + 127.5` is its exact inverse, so normalization maps a pixel value
to `(pixel - 127.5) / 128.0`. -/
def fixed_image_standardization (x : ℚ) : ℚ := (x - 127.5) / 128

/-- Denormalize every pixel of an image. -/
def denormImage (img : Image) : Image := img.map fixed_image_standardization_inverse

/-- Mean of a tensor of scalars, `torch.mean`: sum divided by length. -/
def meanQ (l : List ℚ) : ℚ := l.sum / l.length

/-- Row-wise product-and-sum from `cal_source_grad`: one row of
`(target_rep * source_rep).sum(dim=1)`. -/
def dotSum (t s : Rep) : ℚ := (List.zipWith (fun a b => a * b) t s).sum

/-- Batch similarity as computed in `cal_source_grad`:
`(target_rep * source_rep).sum(dim=1).mean()`. -/
def similarityOf (target_rep source_rep : List Rep) : ℚ :=
  meanQ (List.zipWith dotSum target_rep source_rep)

/-- Shallow embedding of `cal_source_grad`: the returned gradient of the similarity with
respect to the working image is the autodiff oracle applied to the image, and the
similarity value is computed from the model representations exactly as in the source. -/
def cal_source_grad (model : Image → Rep) (gradOf : Batch → Batch)
    (source_img : Batch) (target_rep : List Rep) : Batch × ℚ :=
  (gradOf source_img, similarityOf target_rep (source_img.map model))

/-- Projection of one pixel, `torch.clamp(x, -1.0, 1.0)`. -/
def clampPixel (x : ℚ) : ℚ := min (max x (-1)) 1

/-- Projection of a whole image. -/
def clampImage (img : Image) : Image := img.map clampPixel

/-- Projection of a whole batch. -/
def clampBatch (b : Batch) : Batch := b.map clampImage

/-- Gradient-ascent update of one image: `perturbed_img + lr * grad`, elementwise. -/
def updateImage (lr : ℚ) (img g : Image) : Image :=
  List.zipWith (fun x d => x + lr * d) img g

/-- Gradient-ascent update of a batch. -/
def updateBatch (lr : ℚ) (b g : Batch) : Batch := List.zipWith (updateImage lr) b g

/-- One iteration of the loop body of `iterative_grad_attack`: obtain gradient and
similarity from `cal_source_grad`, take the ascent step, and project back into the
valid range.  Returns the projected image together with the similarity that was
computed at the start of the step. -/
def attackStep (model : Image → Rep) (gradOf : Batch → Batch) (lr : ℚ)
    (target_rep : List Rep) (img : Batch) : Batch × ℚ :=
  let gs := cal_source_grad model gradOf img target_rep
  (clampBatch (updateBatch lr img gs.1), gs.2)

/-- The optimization loop of `iterative_grad_attack`, counting down the remaining step
budget: `for step in range(1, n_steps+1)` with the early break when the similarity
computed in the step exceeds `0.99` (the break in the source fires after the update and
the clamp, so the early-stopped state is the projected one). -/
def attackLoop (model : Image → Rep) (gradOf : Batch → Batch) (lr : ℚ)
    (target_rep : List Rep) : Nat → Batch → Batch
  | 0, img => img
  | n + 1, img =>
    let s := attackStep model gradOf lr target_rep img
    if s.2 > 0.99 then s.1 else attackLoop model gradOf lr target_rep n s.1

/-- The optimization loop again, also counting the iterations actually executed. -/
def attackLoopCount (model : Image → Rep) (gradOf : Batch → Batch) (lr : ℚ)
    (target_rep : List Rep) : Nat → Batch → Batch × Nat
  | 0, img => (img, 0)
  | n + 1, img =>
    let s := attackStep model gradOf lr target_rep img
    if s.2 > 0.99 then (s.1, 1)
    else
      let r := attackLoopCount model gradOf lr target_rep n s.1
      (r.1, r.2 + 1)

/-- Result of `iterative_grad_attack`: the denormalized adversarial images, the mean
pixel distance against the denormalized targets, and the final mean embedding
similarity (`rep_dist` in the source). -/
structure AttackResult where
  adv_imgs : Batch
  dist : ℚ
  rep_dist : ℚ
deriving DecidableEq

/-- Shallow embedding of `iterative_grad_attack`.  The pixel-space distance
`compute_dist` lives in the external `utils` module and enters as an abstract
function. -/
def iterative_grad_attack (model : Image → Rep) (gradOf : Batch → Batch)
    (compute_dist : Image → Image → ℚ)
    (source_img target_img : Batch) (n_steps : Nat) (lr : ℚ) : AttackResult :=
  let target_rep := target_img.map model
  let perturbed_img := attackLoop model gradOf lr target_rep n_steps source_img
  let adv_rep := perturbed_img.map model
  let rep_dist := similarityOf target_rep adv_rep
  let adv_imgs := perturbed_img.map denormImage
  let target_imgs := target_img.map denormImage
  let dist := meanQ (List.zipWith compute_dist adv_imgs target_imgs)
  { adv_imgs := adv_imgs, dist := dist, rep_dist := rep_dist }

/-- An image whose every pixel lies in the valid normalized range. -/
def imageInRange (img : Image) : Prop := ∀ x ∈ img, -1 ≤ x ∧ x ≤ 1

/-- A batch whose every image is in range. -/
def batchInRange (b : Batch) : Prop := ∀ img ∈ b, imageInRange img

instance (img : Image) : Decidable (imageInRange img) := by
  unfold imageInRange; infer_instance

instance (b : Batch) : Decidable (batchInRange b) := by
  unfold batchInRange; infer_instance

lemma clampPixel_mem_range (x : ℚ) : -1 ≤ clampPixel x ∧ clampPixel x ≤ 1 := by
  unfold clampPixel
  constructor
  · exact le_min (le_max_right x (-1)) (by norm_num)
  · exact min_le_right _ _

lemma clampBatch_inRange (b : Batch) : batchInRange (clampBatch b) := by
  intro img hmem
  rcases List.mem_map.1 hmem with ⟨img₀, _, rfl⟩
  intro x hx
  rcases List.mem_map.1 hx with ⟨x₀, _, rfl⟩
  exact clampPixel_mem_range x₀

lemma attackStep_inRange (model : Image → Rep) (gradOf : Batch → Batch) (lr : ℚ)
    (target_rep : List Rep) (img : Batch) :
    batchInRange (attackStep model gradOf lr target_rep img).1 :=
  clampBatch_inRange _

lemma attackLoop_inRange (model : Image → Rep) (gradOf : Batch → Batch) (lr : ℚ)
    (target_rep : List Rep) :
    ∀ (n : Nat) (img : Batch), batchInRange img →
      batchInRange (attackLoop model gradOf lr target_rep n img) := by
  intro n
  induction n with
  | zero => intro img h; exact h
  | succ n ih =>
    intro img _
    show batchInRange
      (if (attackStep model gradOf lr target_rep img).2 > 0.99
        then (attackStep model gradOf lr target_rep img).1
        else attackLoop model gradOf lr target_rep n
          (attackStep model gradOf lr target_rep img).1)
    by_cases h : (attackStep model gradOf lr target_rep img).2 > 0.99
    · simpa [h] using attackStep_inRange model gradOf lr target_rep img
    · simpa [h] using ih _ (attackStep_inRange model gradOf lr target_rep img)

/-- Dot product of two embedding vectors as the spec words it: the inner product over
the embedding dimension, `∑ i, t i * s i`.  This is the spec-side definition used to
check the similarity the source backpropagates. -/
def specDot (t s : Rep) : ℚ := ∑ i in Finset.range t.length, t.getD i 0 * s.getD i 0

/-- Mean over the batch of the per-sample dot products, as the spec words it. -/
def specMeanDotSim (tRep sRep : List Rep) : ℚ :=
  (∑ i in Finset.range tRep.length, specDot (tRep.getD i []) (sRep.getD i [])) /
    tRep.length

/-- A file-system path or file name, modelled as its list of characters. -/
abbrev Path := List Char

/-- Errors the script can raise in the parts the claims cover: the failed `assert` in
`PairDataset.__init__` and the uncaught exception of opening a missing file. -/
inductive AttackError where
  | assertionError : AttackError
  | fileNotFoundError : Path → AttackError
deriving DecidableEq

/-- The two operating modes of `attack`. -/
inductive Mode where
  | val : Mode
  | test : Mode
deriving DecidableEq

/-- Shallow embedding of `PairDataset`. -/
structure PairDataset where
  source_image_paths : List Path
  target_image_paths : List Path
deriving DecidableEq

/-- Shallow embedding of `PairDataset.__init__`: the `assert` comparing the two
lengths is the very first statement, so unequal lengths raise before anything else
happens. -/
def PairDataset.init (source_image_paths target_image_paths : List Path) :
    Except AttackError PairDataset :=
  if source_image_paths.length = target_image_paths.length then
    Except.ok ⟨source_image_paths, target_image_paths⟩
  else Except.error AttackError.assertionError

/-- The (source, target) pairs a `PairDataset` yields: `__getitem__ idx` returns the
paths at index `idx` of the two stored lists. -/
def PairDataset.pairs (d : PairDataset) : List (Path × Path) :=
  d.source_image_paths.zip d.target_image_paths

/-- Split a character list at every occurrence of a separator, as Python
`str.split(sep)` does. -/
def splitOnChar (sep : Char) : List Char → List (List Char)
  | [] => [[]]
  | c :: cs =>
    let r := splitOnChar sep cs
    if c = sep then [] :: r
    else
      match r with
      | [] => [[c]]
      | g :: gs => (c :: g) :: gs

/-- Source-id extraction from `attack`: `path.split('/')[-1][:4]`. -/
def source_id_of (path : Path) : Path := ((splitOnChar '/' path).getLastD []).take 4

/-- Name of the composited adversarial image written for a sample:
`'{}_adv.png'.format(source_id)`. -/
def adv_name_of (path : Path) : Path := source_id_of path ++ "_adv.png".toList

/-- Name of the detection-metadata pickle the reconstruction loads for a sample:
`'{}_info.pkl'.format(source_id)`. -/
def info_name_of (path : Path) : Path := source_id_of path ++ "_info.pkl".toList

/-- Name of the serialized pair list written in val mode. -/
def pairPickleName : Path := "pair.pickle".toList

/-- File writes of the per-sample reconstruction loop in `attack`: for each
(source, target) pair the loop opens the detection-metadata pickle of the source id
and, when it exists, saves the composited adversarial image named by the source id.
Opening a missing metadata file raises an uncaught exception, so the loop stops there:
later pairs are not processed.  Returns the names written by the loop together with the
missing file when a crash stopped it. -/
def processSamples (availableMeta : List Path) :
    List (Path × Path) → List Path × Option Path
  | [] => ([], none)
  | p :: ps =>
    if info_name_of p.1 ∈ availableMeta then
      let r := processSamples availableMeta ps
      (adv_name_of p.1 :: r.1, r.2)
    else ([], some (info_name_of p.1))

/-- Shallow embedding of the file outputs of one `attack` run: the run builds the
`PairDataset` (whose `assert` may fail), the batch loop writes one composited
adversarial image per sample, and in val mode, after the loop completes, the collected
(generated, target) pair list is pickled to `pair.pickle`.  The test branch of the
source builds no pair list and pickles nothing.  Returns the outcome together with the
file names written. -/
def attackRun (mode : Mode) (availableMeta : List Path)
    (src_paths tgt_paths : List Path) : Except AttackError Unit × List Path :=
  match PairDataset.init src_paths tgt_paths with
  | Except.error e => (Except.error e, [])
  | Except.ok d =>
    let r := processSamples availableMeta d.pairs
    match r.2 with
    | some missing => (Except.error (AttackError.fileNotFoundError missing), r.1)
    | none =>
      (Except.ok (), match mode with
        | Mode.val => r.1 ++ [pairPickleName]
        | Mode.test => r.1)

/-- Claim C1: for every source/target batch, learning rate and step count, the working
image produced after the projection of every optimization step of
`iterative_grad_attack` lies within [-1, 1] elementwise, and hence (whenever the source
batch itself is in range, which covers the zero-step loop as well) the perturbed image
handed back after the loop lies within [-1, 1] elementwise. -/
theorem projection_keeps_range (model : Image → Rep) (gradOf : Batch → Batch)
    (lr : ℚ) (target_rep : List Rep) (src : Batch) (n : Nat) :
    (∀ img : Batch, batchInRange (attackStep model gradOf lr target_rep img).1) ∧
    (batchInRange src → batchInRange (attackLoop model gradOf lr target_rep n src)) :=
  ⟨fun img => attackStep_inRange model gradOf lr target_rep img,
   fun h => attackLoop_inRange model gradOf lr target_rep n src h⟩

/-- Witness for C1 at a concrete batch and oracle. -/
theorem projection_keeps_range_witness :
    batchInRange [[0]] ∧
    batchInRange (attackLoop (fun img => img) (fun b => b) 1 [[1]] 3 [[0]]) :=
  ⟨by decide, (projection_keeps_range (fun img => img) (fun b => b) 1 [[1]] [[0]] 3).2
    (by decide)⟩

/-- Claim C2: if the mean embedding similarity computed in a step of the optimization
loop exceeds 0.99, the loop stops immediately: however many steps of budget remain, the
state handed out of the loop is exactly the projected image of that step, so no further
steps execute and the returned result reflects that step. -/
theorem early_stop_halts (model : Image → Rep) (gradOf : Batch → Batch) (lr : ℚ)
    (target_rep : List Rep) (img : Batch)
    (h : (attackStep model gradOf lr target_rep img).2 > 0.99) (n : Nat) :
    attackLoop model gradOf lr target_rep (n + 1) img =
      (attackStep model gradOf lr target_rep img).1 := by
  show (if (attackStep model gradOf lr target_rep img).2 > 0.99
      then (attackStep model gradOf lr target_rep img).1
      else attackLoop model gradOf lr target_rep n
        (attackStep model gradOf lr target_rep img).1) =
    (attackStep model gradOf lr target_rep img).1
  rw [if_pos h]

/-- Witness for C2: an oracle whose similarity is 1 stops a budget of 5 steps after the
first one. -/
theorem early_stop_halts_witness :
    (attackStep (fun _ => [1]) (fun b => b) 1 [[1]] [[0]]).2 > 0.99 ∧
    attackLoop (fun _ => [1]) (fun b => b) 1 [[1]] 5 [[0]] =
      (attackStep (fun _ => [1]) (fun b => b) 1 [[1]] [[0]]).1 := by
  have h : (attackStep (fun _ => [1]) (fun b => b) 1 [[1]] [[0]]).2 > 0.99 := by
    norm_num [attackStep, cal_source_grad, similarityOf, meanQ, dotSum]
  exact ⟨h, early_stop_halts (fun _ => [1]) (fun b => b) 1 [[1]] [[0]] h 4⟩

/-- Claim C9: the optimization loop of `iterative_grad_attack` executes at most
`n_steps` iterations and always terminates (`attackLoopCount` is a total, structurally
recursive function and agrees with the loop while counting the executed iterations). -/
theorem attack_loop_bounded (model : Image → Rep) (gradOf : Batch → Batch) (lr : ℚ)
    (target_rep : List Rep) (n : Nat) (img : Batch) :
    (attackLoopCount model gradOf lr target_rep n img).2 ≤ n ∧
    (attackLoopCount model gradOf lr target_rep n img).1 =
      attackLoop model gradOf lr target_rep n img := by
  induction n generalizing img with
  | zero => exact ⟨Nat.le_refl 0, rfl⟩
  | succ n ih =>
    show ((if (attackStep model gradOf lr target_rep img).2 > 0.99
        then ((attackStep model gradOf lr target_rep img).1, 1)
        else
          ((attackLoopCount model gradOf lr target_rep n
              (attackStep model gradOf lr target_rep img).1).1,
            (attackLoopCount model gradOf lr target_rep n
              (attackStep model gradOf lr target_rep img).1).2 + 1)).2 ≤ n + 1) ∧ _
    by_cases h : (attackStep model gradOf lr target_rep img).2 > 0.99
    · refine ⟨?_, ?_⟩ <;> simp only [attackLoop, attackLoopCount, if_pos h]
      exact Nat.succ_le_succ (Nat.zero_le n)
    · refine ⟨?_, ?_⟩ <;> simp only [attackLoop, attackLoopCount, if_neg h]
      · exact Nat.succ_le_succ (ih _).1
      · exact (ih _).2

/-- Claim C10: with `n_steps = 0` the loop body never executes and
`iterative_grad_attack` returns exactly the denormalized, unperturbed source images,
with the reported similarity being that of the unmodified source embeddings against the
target embeddings. -/
theorem zero_steps_identity (model : Image → Rep) (gradOf : Batch → Batch)
    (compute_dist : Image → Image → ℚ) (src tgt : Batch) (lr : ℚ) :
    iterative_grad_attack model gradOf compute_dist src tgt 0 lr =
      { adv_imgs := src.map denormImage,
        dist := meanQ (List.zipWith compute_dist (src.map denormImage)
          (tgt.map denormImage)),
        rep_dist := similarityOf (tgt.map model) (src.map model) } := rfl

/-- Claim C6: denormalization is the affine map `pixel = tensor*128.0 + 127.5` and it is
the exact inverse of the normalization used on input images:
`normalize (denormalize x) = x` for every value `x` (exactly, over the rationals). -/
theorem denormalization_inverse :
    ∀ x : ℚ, fixed_image_standardization_inverse x = x * 128 + 127.5 ∧
      fixed_image_standardization (fixed_image_standardization_inverse x) = x := by
  intro x
  refine ⟨rfl, ?_⟩
  unfold fixed_image_standardization fixed_image_standardization_inverse
  field_simp

deriving instance DecidableEq for Except

lemma count_eq_one_of_nodup_mem {l : List Path} {a : Path} (hnd : l.Nodup)
    (ha : a ∈ l) : l.count a = 1 := by
  induction l with
  | nil => cases ha
  | cons b bs ih =>
    rw [List.count_cons]
    rcases List.mem_cons.1 ha with rfl | hmem
    · rw [List.count_eq_zero.2 (List.nodup_cons.1 hnd).1]
      simp
    · rw [ih (List.nodup_cons.1 hnd).2 hmem]
      have hne : b ≠ a := fun h => (List.nodup_cons.1 hnd).1 (h ▸ hmem)
      simp [hne]

lemma sum_zipWith_mul : ∀ (t s : List ℚ), t.length = s.length →
    (List.zipWith (fun a b => a * b) t s).sum =
      ∑ i in Finset.range t.length, t.getD i 0 * s.getD i 0
  | [], [], _ => by simp
  | [], _ :: _, h => by simp at h
  | _ :: _, [], h => by simp at h
  | a :: as, b :: bs, h => by
    simp only [List.zipWith_cons_cons, List.sum_cons, List.length_cons]
    rw [Finset.sum_range_succ']
    simp only [List.getD_cons_succ, List.getD_cons_zero]
    rw [sum_zipWith_mul as bs (by simpa using h)]
    ring

lemma dotSum_eq_specDot (t s : Rep) (h : t.length = s.length) :
    dotSum t s = specDot t s :=
  sum_zipWith_mul t s h

lemma sum_zipWith_dotSum : ∀ (tRep sRep : List Rep), tRep.length = sRep.length →
    (∀ i, i < tRep.length → (tRep.getD i []).length = (sRep.getD i []).length) →
    (List.zipWith dotSum tRep sRep).sum =
      ∑ i in Finset.range tRep.length, specDot (tRep.getD i []) (sRep.getD i [])
  | [], [], _, _ => by simp
  | [], _ :: _, h, _ => by simp at h
  | _ :: _, [], h, _ => by simp at h
  | t :: ts, s :: ss, h, hdim => by
    simp only [List.zipWith_cons_cons, List.sum_cons, List.length_cons]
    rw [Finset.sum_range_succ']
    simp only [List.getD_cons_succ, List.getD_cons_zero]
    rw [sum_zipWith_dotSum ts ss (by simpa using h)
      (fun i hi => hdim (i + 1) (Nat.succ_lt_succ hi))]
    rw [dotSum_eq_specDot t s (hdim 0 (Nat.zero_lt_succ _))]
    ring

/-- Claim C5: within each optimization step, the similarity objective that
`cal_source_grad` backpropagates equals the mean over the batch of the elementwise dot
product, over the embedding dimension, between the fixed target embeddings and the
embeddings of the current working images. -/
theorem backpropped_objective_is_mean_dot (model : Image → Rep) (gradOf : Batch → Batch)
    (source_img : Batch) (target_rep : List Rep)
    (hlen : target_rep.length = (source_img.map model).length)
    (hdim : ∀ i, i < target_rep.length →
      (target_rep.getD i []).length = ((source_img.map model).getD i []).length) :
    (cal_source_grad model gradOf source_img target_rep).2 =
      specMeanDotSim target_rep (source_img.map model) := by
  unfold cal_source_grad similarityOf meanQ specMeanDotSim
  rw [sum_zipWith_dotSum _ _ hlen hdim, List.length_zipWith, hlen, min_self]

/-- Witness for C5 with the identity model on a batch of two two-dimensional images. -/
theorem backpropped_objective_is_mean_dot_witness :
    (([[1, 1], [2, 0]] : List Rep).length =
      (([[2, 3], [4, 5]] : Batch).map (fun img => img)).length ∧
     ∀ i, i < ([[1, 1], [2, 0]] : List Rep).length →
      (([[1, 1], [2, 0]] : List Rep).getD i []).length =
        ((([[2, 3], [4, 5]] : Batch).map (fun img => img)).getD i []).length) ∧
    (cal_source_grad (fun img => img) (fun b => b) [[2, 3], [4, 5]]
        [[1, 1], [2, 0]]).2 =
      specMeanDotSim [[1, 1], [2, 0]] (([[2, 3], [4, 5]] : Batch).map fun img => img) := by
  have h1 : ([[1, 1], [2, 0]] : List Rep).length =
      (([[2, 3], [4, 5]] : Batch).map (fun img => img)).length := rfl
  have h2 : ∀ i, i < ([[1, 1], [2, 0]] : List Rep).length →
      (([[1, 1], [2, 0]] : List Rep).getD i []).length =
        ((([[2, 3], [4, 5]] : Batch).map (fun img => img)).getD i []).length := by decide
  exact ⟨⟨h1, h2⟩,
    backpropped_objective_is_mean_dot (fun img => img) (fun b => b)
      [[2, 3], [4, 5]] [[1, 1], [2, 0]] h1 h2⟩

/-- Claim C3: in self-paired (val) mode the dataset is `PairDataset` of the shuffled id
list against the original id list; for `N` ids its construction succeeds and yields
exactly `N` (source, target) pairs, every id appears exactly once as a source, and the
target ids are a permutation of the same id set. -/
theorem self_paired_pairs (shuffled ids : List Path) (hp : shuffled.Perm ids)
    (hnd : ids.Nodup) :
    PairDataset.init shuffled ids = Except.ok (PairDataset.mk shuffled ids) ∧
    (PairDataset.mk shuffled ids).pairs.length = ids.length ∧
    (∀ a ∈ ids, ((PairDataset.mk shuffled ids).pairs.map Prod.fst).count a = 1) ∧
    ((PairDataset.mk shuffled ids).pairs.map Prod.snd).Perm ids := by
  have hlen : shuffled.length = ids.length := hp.length_eq
  refine ⟨?_, ?_, ?_, ?_⟩
  · unfold PairDataset.init
    rw [if_pos hlen]
  · show (shuffled.zip ids).length = ids.length
    rw [List.length_zip, hlen, min_self]
  · intro a ha
    show (List.map Prod.fst (shuffled.zip ids)).count a = 1
    rw [List.map_fst_zip shuffled ids (le_of_eq hlen)]
    exact count_eq_one_of_nodup_mem (hp.nodup_iff.mpr hnd) (hp.mem_iff.mpr ha)
  · show (List.map Prod.snd (shuffled.zip ids)).Perm ids
    rw [List.map_snd_zip shuffled ids (le_of_eq hlen.symm)]

/-- Witness for C3 on two concrete ids. -/
theorem self_paired_pairs_witness :
    (["b".toList, "a".toList].Perm ["a".toList, "b".toList] ∧
      ["a".toList, "b".toList].Nodup) ∧
    PairDataset.init ["b".toList, "a".toList] ["a".toList, "b".toList] =
      Except.ok (PairDataset.mk ["b".toList, "a".toList] ["a".toList, "b".toList]) ∧
    (PairDataset.mk ["b".toList, "a".toList] ["a".toList, "b".toList]).pairs.length =
      ["a".toList, "b".toList].length ∧
    (∀ a ∈ ["a".toList, "b".toList],
      ((PairDataset.mk ["b".toList, "a".toList]
        ["a".toList, "b".toList]).pairs.map Prod.fst).count a = 1) ∧
    ((PairDataset.mk ["b".toList, "a".toList]
      ["a".toList, "b".toList]).pairs.map Prod.snd).Perm ["a".toList, "b".toList] := by
  have hp : ["b".toList, "a".toList].Perm ["a".toList, "b".toList] := by decide
  have hnd : ["a".toList, "b".toList].Nodup := by decide
  exact ⟨⟨hp, hnd⟩, self_paired_pairs ["b".toList, "a".toList]
    ["a".toList, "b".toList] hp hnd⟩

/-- Claim C4: constructing a `PairDataset` from source and target lists of unequal
length fails immediately with the assertion error, before any per-sample processing,
and an `attack` run on such lists writes no files at all. -/
theorem length_mismatch_fails_fast (s t : List Path) (h : s.length ≠ t.length) :
    PairDataset.init s t = Except.error AttackError.assertionError ∧
    ∀ (mode : Mode) (avail : List Path),
      attackRun mode avail s t = (Except.error AttackError.assertionError, []) := by
  have hinit : PairDataset.init s t = Except.error AttackError.assertionError := by
    unfold PairDataset.init
    rw [if_neg h]
  refine ⟨hinit, fun mode avail => ?_⟩
  unfold attackRun
  rw [hinit]

/-- Witness for C4 with a single source path and no target paths. -/
theorem length_mismatch_fails_fast_witness :
    (["a".toList] : List Path).length ≠ ([] : List Path).length ∧
    PairDataset.init ["a".toList] [] = Except.error AttackError.assertionError ∧
    attackRun Mode.val [] ["a".toList] [] =
      (Except.error AttackError.assertionError, []) := by
  have h : (["a".toList] : List Path).length ≠ ([] : List Path).length := by decide
  exact ⟨h, (length_mismatch_fails_fast ["a".toList] [] h).1,
    (length_mismatch_fails_fast ["a".toList] [] h).2 Mode.val []⟩

/-- Counterexample to claim C7 as stated: in this val-mode run the metadata of id 0001
is missing while the metadata of id 0002 exists, yet the run raises an uncaught
exception and writes nothing at all: the feasible remaining sample 0002 is not
processed, nothing is logged, and the run crashes whole. -/
theorem missing_meta_crashes_whole_run :
    attackRun Mode.val ["0002_info.pkl".toList]
      ["d/0001_cropped.png".toList, "d/0002_cropped.png".toList]
      ["d/0001_cropped.png".toList, "d/0002_cropped.png".toList] =
      (Except.error (AttackError.fileNotFoundError "0001_info.pkl".toList), []) := by
  decide

/-- Claim C7 amended: a missing detection-metadata file aborts the whole run at that
sample: the exception propagates uncaught, the sample and all samples after it are not
processed and produce no outputs, and no logging or per-sample recovery occurs; only
the outputs of samples processed before it remain written. -/
theorem missing_meta_aborts_run (avail : List Path) (p : Path × Path)
    (pre post : List (Path × Path))
    (hmiss : info_name_of p.1 ∉ avail)
    (hpre : ∀ q ∈ pre, info_name_of q.1 ∈ avail) :
    processSamples avail (pre ++ p :: post) =
      (pre.map (fun q => adv_name_of q.1), some (info_name_of p.1)) := by
  induction pre with
  | nil =>
    simp only [List.nil_append, List.map_nil]
    unfold processSamples
    rw [if_neg hmiss]
  | cons q qs ih =>
    have hq : info_name_of q.1 ∈ avail := hpre q (List.mem_cons_self q qs)
    have ih' := ih (fun x hx => hpre x (List.mem_cons_of_mem q hx))
    simp only [List.cons_append, List.map_cons]
    unfold processSamples
    rw [if_pos hq, ih']

/-- Witness for the amended C7: one sample with metadata precedes the failing one. -/
theorem missing_meta_aborts_run_witness :
    (info_name_of "d/0002_cropped.png".toList ∉ (["0001_info.pkl".toList] : List Path) ∧
      (∀ q ∈ [("d/0001_cropped.png".toList, "t".toList)],
        info_name_of q.1 ∈ (["0001_info.pkl".toList] : List Path))) ∧
    processSamples ["0001_info.pkl".toList]
      ([("d/0001_cropped.png".toList, "t".toList)] ++
        ("d/0002_cropped.png".toList, "t".toList) ::
          [("d/0003_cropped.png".toList, "t".toList)]) =
      ([adv_name_of "d/0001_cropped.png".toList],
        some (info_name_of "d/0002_cropped.png".toList)) := by
  have h1 : info_name_of "d/0002_cropped.png".toList ∉
      (["0001_info.pkl".toList] : List Path) := by decide
  have h2 : ∀ q ∈ [("d/0001_cropped.png".toList, "t".toList)],
      info_name_of q.1 ∈ (["0001_info.pkl".toList] : List Path) := by decide
  exact ⟨⟨h1, h2⟩, missing_meta_aborts_run ["0001_info.pkl".toList]
    ("d/0002_cropped.png".toList, "t".toList)
    [("d/0001_cropped.png".toList, "t".toList)]
    [("d/0003_cropped.png".toList, "t".toList)] h1 h2⟩

/-- Counterexample to claim C8 as stated: this externally-paired (test mode) run
completes, yet its outputs contain no serialized pair list. -/
theorem test_mode_writes_no_pair_list :
    pairPickleName ∉ (attackRun Mode.test ["0001_info.pkl".toList]
      ["d/0001_cropped.png".toList] ["d/0001_cropped.png".toList]).2 := by
  decide

/-- Claim C8 amended: only the self-paired val mode serializes the
(generated_filename, target_filename) pair list: a completed val-mode run writes the
per-sample adversarial images followed by `pair.pickle`, while a completed test-mode
run writes the per-sample adversarial images only. -/
theorem pair_list_serialized_only_in_val (avail s t : List Path) (d : PairDataset)
    (hd : PairDataset.init s t = Except.ok d)
    (hok : (processSamples avail d.pairs).2 = none) :
    (attackRun Mode.val avail s t).2 =
      (processSamples avail d.pairs).1 ++ [pairPickleName] ∧
    (attackRun Mode.test avail s t).2 = (processSamples avail d.pairs).1 := by
  constructor <;> · unfold attackRun; rw [hd]; simp only [hok]

/-- Witness for the amended C8 on a one-sample run. -/
theorem pair_list_serialized_only_in_val_witness :
    (PairDataset.init ["d/0001_cropped.png".toList] ["d/0001_cropped.png".toList] =
        Except.ok (PairDataset.mk ["d/0001_cropped.png".toList]
          ["d/0001_cropped.png".toList]) ∧
      (processSamples ["0001_info.pkl".toList]
        (PairDataset.mk ["d/0001_cropped.png".toList]
          ["d/0001_cropped.png".toList]).pairs).2 = none) ∧
    (attackRun Mode.val ["0001_info.pkl".toList] ["d/0001_cropped.png".toList]
        ["d/0001_cropped.png".toList]).2 =
      (processSamples ["0001_info.pkl".toList]
        (PairDataset.mk ["d/0001_cropped.png".toList]
          ["d/0001_cropped.png".toList]).pairs).1 ++ [pairPickleName] ∧
    (attackRun Mode.test ["0001_info.pkl".toList] ["d/0001_cropped.png".toList]
        ["d/0001_cropped.png".toList]).2 =
      (processSamples ["0001_info.pkl".toList]
        (PairDataset.mk ["d/0001_cropped.png".toList]
          ["d/0001_cropped.png".toList]).pairs).1 := by
  have hd : PairDataset.init ["d/0001_cropped.png".toList]
      ["d/0001_cropped.png".toList] =
      Except.ok (PairDataset.mk ["d/0001_cropped.png".toList]
        ["d/0001_cropped.png".toList]) := by decide
  have hok : (processSamples ["0001_info.pkl".toList]
      (PairDataset.mk ["d/0001_cropped.png".toList]
        ["d/0001_cropped.png".toList]).pairs).2 = none := by decide
  exact ⟨⟨hd, hok⟩, pair_list_serialized_only_in_val ["0001_info.pkl".toList]
    ["d/0001_cropped.png".toList] ["d/0001_cropped.png".toList]
    (PairDataset.mk ["d/0001_cropped.png".toList] ["d/0001_cropped.png".toList])
    hd hok⟩

end FaceAttack
